import Mathlib

set_option autoImplicit false
set_option maxHeartbeats 1000000

/-! Shallow embedding of `canvasapi/paginated_list.py` (class `PaginatedList`).

Decoded JSON response bodies are modelled by the inductive type `JSON`.
The Python exceptions that this module can raise or catch are modelled by
`PyErr`.  The injected requester is modelled as a function from the fetch
ordinal to the raw `Response` (the code issues its requests strictly
sequentially, so the ordinal determines the request).  The injected
`content_class` constructor is modelled as the identity on the merged raw
item, so a constructed element is the merged raw `JSON` dict itself.
Loops whose termination depends on the remote data (`_get_up_to_index`,
`__iter__`, `_Slice.__iter__`) are given explicit fuel and return `none`
when the fuel runs out before the loop exits. -/

/-- A decoded JSON value (the result of `response.json()`). -/
inductive JSON where
  | null
  | bool (b : Bool)
  | num (n : Int)
  | str (s : String)
  | arr (elems : List JSON)
  | obj (fields : List (String × JSON))

/-- The Python exceptions raised or caught inside `paginated_list.py`. -/
inductive PyErr where
  | keyError
  | typeError
  | indexError (msg : String)
  | assertionError
  | attributeError
  | valueError (msg : String)

/-- Python string-subscripting `x[key]`: succeeds only on a dict that has the
key (`KeyError` when the key is absent, `TypeError` on any non-dict value). -/
def JSON.getItem : JSON → String → Except PyErr JSON
  | .obj fields, key =>
    match fields.lookup key with
    | some v => .ok v
    | none => .error .keyError
  | _, _ => .error .typeError

/-- Whether a JSON value is a dict (Python mapping). -/
def JSON.isObj : JSON → Bool
  | .obj _ => true
  | _ => false

/-- One page response: `response.links` is the parsed `Link`-header relation
map (relation name to URL, empty when no header was sent) and `body` is the
decoded JSON body. -/
structure Response where
  links : List (String × String)
  body : JSON

/-- The fixed collaborators of one `PaginatedList`: the two known base URLs
of the requester, the construction-time `extra_attribs` and `_root`
arguments, and the requester itself, modelled as the responses it returns
for the 1st, 2nd, ... page request.  (`request_method` and `_url_override`
are passed through to the requester unchanged and are folded into
`server`.) -/
structure PLConfig where
  baseUrl : String
  newQuizzesUrl : String
  extraAttribs : List (String × JSON)
  root : Option String
  server : Nat → Response

/-- The mutable state of one `PaginatedList`: `self._elements`,
`self._next_url`, `self._next_params` and the number of page requests
issued so far. -/
structure PLState where
  elements : List JSON
  nextUrl : Option String
  nextParams : List (String × JSON)
  fetchCount : Nat

/-- Python `dict.update`: keys already present keep their position and take
the new value, new keys are appended in the order of `extra`. -/
def dictUpdate (fields extra : List (String × JSON)) : List (String × JSON) :=
  fields.map (fun kv =>
    match extra.lookup kv.1 with
    | some w => (kv.1, w)
    | none => kv)
  ++ extra.filter (fun kv => (fields.lookup kv.1).isNone)

/-- Python `for element in data`: a list yields its elements, a dict yields
its keys, a string yields its characters (as 1-character strings), every
other JSON value is not iterable (`TypeError`). -/
def pyIter : JSON → Except PyErr (List JSON)
  | .arr elems => .ok elems
  | .obj fields => .ok (fields.map (fun kv => JSON.str kv.1))
  | .str s => .ok (s.data.map (fun c => JSON.str (String.mk [c])))
  | _ => .error .typeError

/-- The item loop of `_get_next_page`: skip `None` entries, merge
`extra_attribs` into each remaining raw item with `dict.update`
(`AttributeError` when the raw item is not a dict) and construct one
element per item.  The injected constructor is modelled as the identity,
so the constructed element is the merged dict. -/
def buildItems (extra : List (String × JSON)) : List JSON → Except PyErr (List JSON)
  | [] => .ok []
  | .null :: rest => buildItems extra rest
  | .obj fields :: rest =>
    match buildItems extra rest with
    | .ok tail => .ok (.obj (dictUpdate fields extra) :: tail)
    | .error e => .error e
  | _ :: _ => .error .attributeError

/-- The `_root` unwrapping step of `_get_next_page`: `data = data[self._root]`
with `KeyError` re-raised as `ValueError` (a falsy root, `None` or the
empty string, skips the step). -/
def unwrapRoot (cfg : PLConfig) (data : JSON) : Except PyErr JSON :=
  match cfg.root with
  | none => .ok data
  | some r =>
    if r.isEmpty then .ok data
    else
      match data.getItem r with
      | .ok d => .ok d
      | .error .keyError => .error (.valueError "The key does not exist in the response.")
      | .error e => .error e

/-- The content-building half of `_get_next_page`: unwrap the configured
root, iterate the body and build one element per non-null raw item. -/
def buildContent (cfg : PLConfig) (data : JSON) : Except PyErr (List JSON) :=
  match unwrapRoot cfg data with
  | .error e => .error e
  | .ok d =>
    match pyIter d with
    | .error e => .error e
    | .ok rawItems => buildItems cfg.extraAttribs rawItems

/-- The meta fallback of `_get_next_page`:
`data["meta"]["pagination"]["next"]` inside `try ... except KeyError`.
Only `KeyError` is swallowed (yielding no next link); a `TypeError` from
subscripting a non-dict propagates.  On success the code builds the dict
`\x7b"url": <value>, "rel": "next"\x7d` and later reads only its `"url"`
entry, so the model returns the URL value itself. -/
def tryMetaNext (data : JSON) : Except PyErr (Option JSON) :=
  match data.getItem "meta" with
  | .error .keyError => .ok none
  | .error e => .error e
  | .ok m =>
    match m.getItem "pagination" with
    | .error .keyError => .ok none
    | .error e => .error e
    | .ok p =>
      match p.getItem "next" with
      | .error .keyError => .ok none
      | .error e => .error e
      | .ok v => .ok (some v)

/-- The link-selection step of `_get_next_page`: when `response.links` is
truthy (non-empty) take `response.links.get("next")` (a header link's URL
is always a string); otherwise, when the body is a dict containing
`"meta"`, use the meta fallback; otherwise there is no next link. -/
def extractNextLink (resp : Response) : Except PyErr (Option JSON) :=
  if resp.links.isEmpty then
    match resp.body with
    | .obj fields =>
      if (fields.lookup "meta").isSome then tryMetaNext (.obj fields) else .ok none
    | _ => .ok none
  else
    .ok ((resp.links.lookup "next").map JSON.str)

/-- Scan of `re.search` for the pattern `(?:base|nq)(.*)`: find the
earliest position where `base` (tried first, as in the alternation) or
`nq` matches, and return the remainder of the string after the match. -/
def searchAux (base nq : List Char) : List Char → Option (List Char)
  | [] =>
    if base.isPrefixOf ([] : List Char) then some []
    else if nq.isPrefixOf ([] : List Char) then some []
    else none
  | c :: cs =>
    if base.isPrefixOf (c :: cs) then some ((c :: cs).drop base.length)
    else if nq.isPrefixOf (c :: cs) then some ((c :: cs).drop nq.length)
    else searchAux base nq cs

/-- Model of `re.search(r"(?:base|nq)(.*)", url).group(1)`: `none` when the
pattern matches nowhere in `url` (in the code, `re.search` returns `None`);
otherwise the captured group, which `.*` cuts off at a newline. -/
def regexSearchGroup1 (base nq url : String) : Option String :=
  (searchAux base.data nq.data url.data).map
    (fun rest => String.mk (rest.takeWhile (fun c => c != '\n')))

/-- Normalization of a next-link URL value in `_get_next_page`:
`re.search(regex, next_link["url"]).group(1)`.  A non-string URL value
makes `re.search` raise `TypeError`; when the pattern does not match,
`re.search` returns `None` and `.group(1)` raises `AttributeError`. -/
def normalizeUrl (cfg : PLConfig) (urlVal : JSON) : Except PyErr String :=
  match urlVal with
  | .str url =>
    match regexSearchGroup1 cfg.baseUrl cfg.newQuizzesUrl url with
    | some g => .ok g
    | none => .error .attributeError
  | _ => .error .typeError

/-- The whole cursor computation of `_get_next_page`: select the next link
(header first, meta fallback second) and normalize its URL. -/
def extractCursor (cfg : PLConfig) (resp : Response) : Except PyErr (Option String) :=
  match extractNextLink resp with
  | .error e => .error e
  | .ok none => .ok none
  | .ok (some urlVal) =>
    match normalizeUrl cfg urlVal with
    | .error e => .error e
    | .ok loc => .ok (some loc)

/-- `PaginatedList._get_next_page`: issue one request (the response is the
`server` entry for the current fetch ordinal), set `self._next_url` to
`None` before parsing, compute the next cursor, reset `self._next_params`
to empty, then build the page's elements.  Mirrors the mutation order of
the source: a cursor-extraction error leaves `next_url = None` with the
params untouched, a content-building error leaves the already-computed
cursor in place. -/
def getNextPage (cfg : PLConfig) (s : PLState) : PLState × Except PyErr (List JSON) :=
  match extractCursor cfg (cfg.server s.fetchCount) with
  | .error e =>
    ({ s with fetchCount := s.fetchCount + 1, nextUrl := none }, .error e)
  | .ok cur =>
    match buildContent cfg (cfg.server s.fetchCount).body with
    | .error e =>
      ({ s with fetchCount := s.fetchCount + 1, nextUrl := cur, nextParams := [] }, .error e)
    | .ok content =>
      ({ s with fetchCount := s.fetchCount + 1, nextUrl := cur, nextParams := [] }, .ok content)

/-- `PaginatedList._has_next`: `self._next_url is not None`. -/
def hasNext (s : PLState) : Bool :=
  s.nextUrl.isSome

/-- `PaginatedList._is_larger_than`:
`len(self._elements) > index or self._has_next()`. -/
def isLargerThan (s : PLState) (index : Int) : Bool :=
  decide (index < (s.elements.length : Int)) || hasNext s

/-- `PaginatedList._grow`: fetch one page and append its elements. -/
def grow (cfg : PLConfig) (s : PLState) : PLState × Except PyErr (List JSON) :=
  match getNextPage cfg s with
  | (s1, .ok newElements) =>
    ({ s1 with elements := s1.elements ++ newElements }, .ok newElements)
  | (s1, .error e) => (s1, .error e)

/-- `PaginatedList._get_up_to_index`: grow while
`len(self._elements) <= index and self._has_next()`.  `none` means the
fuel ran out before the loop condition became false. -/
def getUpToIndexLoop (cfg : PLConfig) (index : Int) :
    Nat → PLState → Option (PLState × Except PyErr Unit)
  | 0, s =>
    if (s.elements.length : Int) ≤ index ∧ hasNext s then none else some (s, .ok ())
  | fuel + 1, s =>
    if (s.elements.length : Int) ≤ index ∧ hasNext s then
      match grow cfg s with
      | (s1, .ok _) => getUpToIndexLoop cfg index fuel s1
      | (s1, .error e) => some (s1, .error e)
    else some (s, .ok ())

/-- The integer branch of `PaginatedList.__getitem__`: reject negative
indices, call `_get_up_to_index`, then return `self._elements[index]`
(`IndexError` when still out of range). -/
def getitemInt (cfg : PLConfig) (fuel : Nat) (i : Int) (s : PLState) :
    Option (PLState × Except PyErr JSON) :=
  if i < 0 then some (s, .error (.indexError "Cannot negative index a PaginatedList"))
  else
    match getUpToIndexLoop cfg i fuel s with
    | none => none
    | some (s1, .error e) => some (s1, .error e)
    | some (s1, .ok _) =>
      match s1.elements[i.toNat]? with
      | some x => some (s1, .ok x)
      | none => some (s1, .error (.indexError "list index out of range"))

/-- A Python slice object as received by `__getitem__`: each of
`start`/`stop`/`step` is an integer or `None`. -/
structure PySlice where
  start : Option Int
  stop : Option Int
  step : Option Int

/-- The state held by a constructed `PaginatedList._Slice` view. -/
structure SliceView where
  start : Int
  stop : Option Int
  step : Int

/-- `PaginatedList._Slice.__init__`: `start or 0` and `step or 1` (Python
`or`, so an explicit 0 is also replaced), then
`if self._start < 0 or self._stop < 0`.  When `stop` is `None` the second
comparison is `None < 0`, which raises `TypeError` in Python 3. -/
def sliceInit (sl : PySlice) : Except PyErr SliceView :=
  let start : Int :=
    match sl.start with
    | none => 0
    | some v => if v = 0 then 0 else v
  let step : Int :=
    match sl.step with
    | none => 1
    | some v => if v = 0 then 1 else v
  if start < 0 then .error (.indexError "Cannot negative index a PaginatedList slice")
  else
    match sl.stop with
    | none => .error .typeError
    | some st =>
      if st < 0 then .error (.indexError "Cannot negative index a PaginatedList slice")
      else .ok { start := start, stop := some st, step := step }

/-- `PaginatedList._Slice._finished`:
`self._stop is not None and index >= self._stop`. -/
def sliceFinished (v : SliceView) (index : Int) : Bool :=
  match v.stop with
  | none => false
  | some st => decide (st ≤ index)

/-- `PaginatedList._Slice.__iter__`, run to exhaustion: while not finished,
probe `_is_larger_than`, look the index up on the parent list (an
`IndexError` ends the sequence silently, any other error propagates) and
advance by `step`.  `pageFuel` bounds each inner `_get_up_to_index` loop,
`fuel` bounds the number of slice iterations; `none` means a fuel ran
out. -/
def sliceIterLoop (cfg : PLConfig) (v : SliceView) (pageFuel : Nat) :
    Nat → Int → PLState → Option (PLState × Except PyErr (List JSON))
  | 0, index, s => if sliceFinished v index then some (s, .ok []) else none
  | fuel + 1, index, s =>
    if sliceFinished v index then some (s, .ok [])
    else if isLargerThan s index then
      match getitemInt cfg pageFuel index s with
      | none => none
      | some (s1, .ok x) =>
        match sliceIterLoop cfg v pageFuel fuel (index + v.step) s1 with
        | none => none
        | some (s2, .error e) => some (s2, .error e)
        | some (s2, .ok rest) => some (s2, .ok (x :: rest))
      | some (s1, .error (.indexError _)) => some (s1, .ok [])
      | some (s1, .error e) => some (s1, .error e)
    else some (s, .ok [])

/-- The argument of `__getitem__`: an int, a slice, or anything else (the
`assert isinstance(index, (int, slice))` distinguishes only these three
shapes, so every non-int non-slice argument behaves identically). -/
inductive IndexArg where
  | int (i : Int)
  | slice (sl : PySlice)
  | other

/-- What `__getitem__` returns: an element for an int index, a `_Slice`
view for a slice. -/
inductive GetItemResult where
  | item (x : JSON)
  | sliceView (v : SliceView)

/-- `PaginatedList.__getitem__`: the `assert isinstance(index, (int, slice))`
fails first for any other argument; an int is looked up (after growth), a
slice builds a `_Slice` view. -/
def getitem (cfg : PLConfig) (fuel : Nat) (arg : IndexArg) (s : PLState) :
    Option (PLState × Except PyErr GetItemResult) :=
  match arg with
  | .other => some (s, .error .assertionError)
  | .int i => (getitemInt cfg fuel i s).map (fun p => (p.1, p.2.map GetItemResult.item))
  | .slice sl => some (s, (sliceInit sl).map GetItemResult.sliceView)

/-- The growing phase of `PaginatedList.__iter__`: while `_has_next()`,
grow and yield the new elements.  `none` means the fuel ran out before
pagination was exhausted. -/
def iterLoop (cfg : PLConfig) : Nat → PLState → Option (PLState × Except PyErr (List JSON))
  | 0, s => if hasNext s then none else some (s, .ok [])
  | fuel + 1, s =>
    if hasNext s then
      match grow cfg s with
      | (s1, .ok newElements) =>
        match iterLoop cfg fuel s1 with
        | none => none
        | some (s2, .error e) => some (s2, .error e)
        | some (s2, .ok rest) => some (s2, .ok (newElements ++ rest))
      | (s1, .error e) => some (s1, .error e)
    else some (s, .ok [])

/-- `PaginatedList.__iter__`, run to exhaustion: first replay the already
materialized elements, then keep growing while `_has_next()`. -/
def fullIter (cfg : PLConfig) (fuel : Nat) (s : PLState) :
    Option (PLState × Except PyErr (List JSON)) :=
  match iterLoop cfg fuel s with
  | none => none
  | some (s1, .error e) => some (s1, .error e)
  | some (s1, .ok grown) => some (s1, .ok (s.elements ++ grown))

/-- The `per_page` defaulting of `__init__`:
`self._first_params["per_page"] = kwargs.get("per_page", 100)` (a no-op
when the caller already supplied `per_page`). -/
def initParams (kwargs : List (String × JSON)) : List (String × JSON) :=
  if (kwargs.lookup "per_page").isSome then kwargs
  else kwargs ++ [("per_page", .num 100)]

/-- `PaginatedList.__init__`: empty element list, cursor at `first_url`,
first-request params, no fetches yet. -/
def initState (firstUrl : String) (kwargs : List (String × JSON)) : PLState :=
  { elements := []
    nextUrl := some firstUrl
    nextParams := initParams kwargs
    fetchCount := 0 }

/-- A server serving exactly the given pages: for every fetch ordinal
`k < pages.length`, cursor extraction yields a (normalized) cursor exactly
when pages remain, and content building yields page `k`. -/
def serverYields (cfg : PLConfig) (pages : List (List JSON)) (nexts : Nat → String) : Prop :=
  ∀ k, k < pages.length →
    extractCursor cfg (cfg.server k) =
      .ok (if k + 1 < pages.length then some (nexts k) else none) ∧
    buildContent cfg (cfg.server k).body = .ok (pages.getD k [])

/-! Concrete sample data shared by the witnesses: a two-page collection
whose first page links to its second page via the header convention. -/

/-- Sample raw item 1. -/
def itemA : JSON := .obj [("id", .num 1)]

/-- Sample raw item 2. -/
def itemB : JSON := .obj [("id", .num 2)]

/-- Sample raw item 3. -/
def itemC : JSON := .obj [("id", .num 3)]

/-- Sample first page: header link to the second page, two items. -/
def respA : Response := { links := [("next", "B/p2")], body := .arr [itemA, itemB] }

/-- Sample last page: no header link, plain list body, one item. -/
def respB : Response := { links := [], body := .arr [itemC] }

/-- Sample configuration: base URL `B`, new-quizzes URL `Q`, no extra
attribs, no root, a server answering `respA` then `respB`. -/
def cfg0 : PLConfig :=
  { baseUrl := "B", newQuizzesUrl := "Q", extraAttribs := [], root := none
    server := fun k => if k = 0 then respA else respB }

/-- The pages served by `cfg0`. -/
def pages0 : List (List JSON) := [[itemA, itemB], [itemC]]

/-- The state of a `cfg0` collection after its first page fetch. -/
def stateAfterOne : PLState :=
  { elements := [itemA, itemB], nextUrl := some "/p2", nextParams := [], fetchCount := 1 }

/-- The state of a `cfg0` collection after both page fetches. -/
def stateAfterTwo : PLState :=
  { elements := [itemA, itemB, itemC], nextUrl := none, nextParams := [], fetchCount := 2 }

/-! Basic lemmas about a single page fetch. -/

/-- `_get_next_page` never touches `self._elements`. -/
theorem getNextPage_elements (cfg : PLConfig) (s : PLState) :
    (getNextPage cfg s).1.elements = s.elements := by
  unfold getNextPage
  cases extractCursor cfg (cfg.server s.fetchCount) with
  | error e => rfl
  | ok cur => cases buildContent cfg (cfg.server s.fetchCount).body <;> rfl

/-- `_get_next_page` issues exactly one request. -/
theorem getNextPage_fetchCount (cfg : PLConfig) (s : PLState) :
    (getNextPage cfg s).1.fetchCount = s.fetchCount + 1 := by
  unfold getNextPage
  cases extractCursor cfg (cfg.server s.fetchCount) with
  | error e => rfl
  | ok cur => cases buildContent cfg (cfg.server s.fetchCount).body <;> rfl

/-- `_grow` only appends to `self._elements`. -/
theorem grow_appends (cfg : PLConfig) (s s1 : PLState) (r : Except PyErr (List JSON))
    (h : grow cfg s = (s1, r)) : s.elements <+: s1.elements := by
  unfold grow at h
  cases hg : getNextPage cfg s with
  | mk sm rm =>
    have he : sm.elements = s.elements := by
      have := getNextPage_elements cfg s
      rw [hg] at this
      exact this
    rw [hg] at h
    cases rm with
    | ok newElements =>
      cases h
      rw [← he]
      exact List.prefix_append _ _
    | error e =>
      cases h
      rw [← he]

/-- On success, `_grow` behaves as predicted by the cursor extraction and
content building of the fetched response. -/
theorem grow_spec (cfg : PLConfig) (s : PLState) (cur : Option String) (items : List JSON)
    (h1 : extractCursor cfg (cfg.server s.fetchCount) = .ok cur)
    (h2 : buildContent cfg (cfg.server s.fetchCount).body = .ok items) :
    grow cfg s = ({ s with elements := s.elements ++ items,
                           nextUrl := cur,
                           nextParams := [],
                           fetchCount := s.fetchCount + 1 }, .ok items) := by
  unfold grow getNextPage
  rw [h1, h2]

/-! Lemmas about `_get_up_to_index` and the int branch of `__getitem__`. -/

/-- The `_get_up_to_index` loop only appends to `self._elements`. -/
theorem getUpToIndexLoop_appends (cfg : PLConfig) (index : Int) :
    ∀ fuel s s1 r, getUpToIndexLoop cfg index fuel s = some (s1, r) →
      s.elements <+: s1.elements := by
  intro fuel
  induction fuel with
  | zero =>
    intro s s1 r h
    unfold getUpToIndexLoop at h
    split at h
    · exact absurd h (by simp)
    · cases h
      exact List.prefix_rfl
  | succ fuel ih =>
    intro s s1 r h
    unfold getUpToIndexLoop at h
    split at h
    · cases hg : grow cfg s with
      | mk sm rm =>
        rw [hg] at h
        cases rm with
        | ok newElements =>
          exact (grow_appends cfg s sm _ hg).trans (ih sm s1 r h)
        | error e =>
          cases h
          exact grow_appends cfg s s1 _ hg
    · cases h
      exact List.prefix_rfl

/-- When the cursor is already absent, the `_get_up_to_index` loop exits at
once without touching the state. -/
theorem getUpToIndexLoop_absent (cfg : PLConfig) (index : Int) (fuel : Nat) (s : PLState)
    (hn : s.nextUrl = none) :
    getUpToIndexLoop cfg index fuel s = some (s, .ok ()) := by
  have hhn : hasNext s = false := by simp [hasNext, hn]
  cases fuel <;> · unfold getUpToIndexLoop; simp [hhn]

/-- When the store is already long enough, the `_get_up_to_index` loop
exits at once without touching the state. -/
theorem getUpToIndexLoop_long (cfg : PLConfig) (index : Int) (fuel : Nat) (s : PLState)
    (hl : index < (s.elements.length : Int)) :
    getUpToIndexLoop cfg index fuel s = some (s, .ok ()) := by
  cases fuel <;> · unfold getUpToIndexLoop; simp; intro h; omega

/-- The int branch of `__getitem__` only appends to `self._elements`. -/
theorem getitemInt_appends (cfg : PLConfig) (fuel : Nat) (i : Int) (s s1 : PLState)
    (r : Except PyErr JSON) (h : getitemInt cfg fuel i s = some (s1, r)) :
    s.elements <+: s1.elements := by
  unfold getitemInt at h
  split at h
  · cases h
    exact List.prefix_rfl
  · cases hu : getUpToIndexLoop cfg i fuel s with
    | none => rw [hu] at h; exact absurd h (by simp)
    | some p =>
      cases p with
      | mk sm rm =>
        rw [hu] at h
        have hp := getUpToIndexLoop_appends cfg i fuel s sm rm hu
        cases rm with
        | error e => cases h; exact hp
        | ok u =>
          simp only at h
          cases hx : sm.elements[i.toNat]? with
          | some x => rw [hx] at h; cases h; exact hp
          | none => rw [hx] at h; cases h; exact hp

/-- When the cursor is absent, the int branch of `__getitem__` returns
without touching the state (no fetch can happen). -/
theorem getitemInt_absent (cfg : PLConfig) (fuel : Nat) (i : Int) (s : PLState)
    (hn : s.nextUrl = none) :
    ∃ r, getitemInt cfg fuel i s = some (s, r) := by
  unfold getitemInt
  split
  · exact ⟨_, rfl⟩
  · rw [getUpToIndexLoop_absent cfg i fuel s hn]
    cases hx : s.elements[i.toNat]? with
    | some x => exact ⟨.ok x, by simp [hx]⟩
    | none => exact ⟨.error (.indexError "list index out of range"), by simp [hx]⟩

/-- C1: the claim states that a slice with start 0, stop `None` and step 2
lazily yields every second element until exhaustion.  In the code,
`_Slice.__init__` evaluates `self._stop < 0` even when `stop` is `None`,
and `None < 0` raises `TypeError` in Python 3, so `collection[0:None:2]`
fails the moment the slice view is constructed, for every collection and
every state — even though `_Slice._finished` explicitly supports
`stop is None`.  This theorem evaluates the code at the failing input. -/
theorem slice_stop_none_raises_typeError (cfg : PLConfig) (fuel : Nat) (s : PLState) :
    getitem cfg fuel (.slice ⟨some 0, none, some 2⟩) s =
      some (s, .error .typeError) := rfl

/-- C7: for every negative integer index, `__getitem__` fails immediately
with `IndexError("Cannot negative index a PaginatedList")`; the state is
returned unchanged, so no element was appended, the cursor is untouched
and `fetchCount` shows that no request was issued. -/
theorem negative_index_invalid (cfg : PLConfig) (fuel : Nat) (i : Int) (s : PLState)
    (h : i < 0) :
    getitem cfg fuel (.int i) s =
      some (s, .error (.indexError "Cannot negative index a PaginatedList")) := by
  simp [getitem, getitemInt, h, Except.map]

/-- Witness for C7 at `i = -1` on the freshly initialized sample
collection. -/
theorem negative_index_invalid_witness :
    getitem cfg0 0 (.int (-1)) (initState "/p1" []) =
      some (initState "/p1" [],
        .error (.indexError "Cannot negative index a PaginatedList")) :=
  negative_index_invalid cfg0 0 (-1) (initState "/p1" []) (by decide)

/-- C9: for every `__getitem__` argument that is neither an int nor a
slice, the `assert isinstance(index, (int, slice))` fails with
`AssertionError` before anything else runs: the state is returned
unchanged, so no request was issued and nothing was appended. -/
theorem non_int_non_slice_asserts (cfg : PLConfig) (fuel : Nat) (s : PLState) :
    getitem cfg fuel .other s = some (s, .error .assertionError) := rfl

/-- Key step for C8: once the store is long enough for `i`, a repeated
lookup leaves the state alone and returns the same element, for any
fuel. -/
theorem getitemInt_idempotent (cfg : PLConfig) (fuel fuel2 : Nat) (i : Int) (s s1 : PLState)
    (x : JSON) (h : getitemInt cfg fuel i s = some (s1, .ok x)) :
    getitemInt cfg fuel2 i s1 = some (s1, .ok x) := by
  unfold getitemInt at h ⊢
  split at h
  · cases h
  · rename_i hneg
    cases hu : getUpToIndexLoop cfg i fuel s with
    | none => rw [hu] at h; exact absurd h (by simp)
    | some p =>
      cases p with
      | mk sm rm =>
        rw [hu] at h
        cases rm with
        | error e => cases h
        | ok u =>
          simp only at h
          cases hx : sm.elements[i.toNat]? with
          | none => rw [hx] at h; cases h
          | some y =>
            rw [hx] at h
            cases h
            have hlen : i.toNat < s1.elements.length := by
              have := List.getElem?_eq_some_iff.mp hx
              exact this.1
            have hlt : i < (s1.elements.length : Int) := by
              omega
            split
            · omega
            · rw [getUpToIndexLoop_long cfg i fuel2 s1 hlt]
              simp [hx]

/-- C8: once `collection[i]` has succeeded (with result element `x` and
resulting state `s1`), every later `collection[i]` returns the very same
element and the very same state — in particular `fetchCount` is unchanged,
so no further page is fetched, with any fuel (even zero). -/
theorem repeated_index_read_idempotent (cfg : PLConfig) (fuel fuel2 : Nat) (i : Int)
    (s s1 : PLState) (x : JSON)
    (h : getitem cfg fuel (.int i) s = some (s1, .ok (.item x))) :
    getitem cfg fuel2 (.int i) s1 = some (s1, .ok (.item x)) := by
  simp only [getitem] at h ⊢
  cases hg : getitemInt cfg fuel i s with
  | none => rw [hg] at h; exact absurd h (by simp)
  | some p =>
    cases p with
    | mk sm rm =>
      rw [hg] at h
      simp at h
      obtain ⟨hs, hr⟩ := h
      subst hs
      cases rm with
      | error e => simp [Except.map] at hr
      | ok y =>
        simp [Except.map] at hr
        subst hr
        rw [getitemInt_idempotent cfg fuel fuel2 i s sm y hg]
        rfl

/-- Witness for C8: reading index 0 of the sample collection fetches one
page and returns item A; re-reading with fuel 0 returns the same item from
the same state, proving no further fetch happens. -/
theorem repeated_index_read_idempotent_witness :
    getitem cfg0 0 (.int 0) stateAfterOne = some (stateAfterOne, .ok (.item itemA)) :=
  repeated_index_read_idempotent cfg0 2 0 0 (initState "/p1" []) stateAfterOne itemA rfl

/-! Claims about the cursor-extraction branch structure. -/

/-- A response whose link map is non-empty but has no `"next"` relation,
while the body carries a complete `meta.pagination.next`. -/
def respLinksNoNext : Response :=
  { links := [("current", "B/cur")]
    body := .obj [("meta", .obj [("pagination", .obj [("next", .str "B/p2")])])] }

/-- Counterexample to C2 as stated: `respLinksNoNext` has a parsed link map
without a `"next"` relation and a body whose `meta.pagination.next` is a
URL, yet cursor extraction returns an absent cursor — it does not fall
through to the meta fallback (which would have produced `"/p2"`), because
`if response.links:` tests only truthiness of the map. -/
theorem links_without_next_skips_meta_cex :
    respLinksNoNext.links.isEmpty = false ∧
    respLinksNoNext.links.lookup "next" = none ∧
    tryMetaNext respLinksNoNext.body = .ok (some (.str "B/p2")) ∧
    extractCursor cfg0 respLinksNoNext = .ok none ∧
    regexSearchGroup1 cfg0.baseUrl cfg0.newQuizzesUrl "B/p2" = some "/p2" :=
  ⟨rfl, rfl, rfl, rfl, rfl⟩

/-- C2 (amended): the meta fallback is consulted only when the parsed link
map is empty; whenever the map is non-empty the header path is used even
if it has no `"next"` relation, in which case the cursor simply comes out
absent.  When the map is empty and the body is a dict containing `"meta"`,
extraction equals the meta fallback. -/
theorem extract_link_branch_amended (resp : Response) :
    (resp.links.isEmpty = false →
      extractNextLink resp = .ok ((resp.links.lookup "next").map JSON.str)) ∧
    (resp.links.isEmpty = true →
      ∀ fields, resp.body = .obj fields → (fields.lookup "meta").isSome = true →
        extractNextLink resp = tryMetaNext resp.body) := by
  constructor
  · intro hne
    unfold extractNextLink
    rw [hne]
    simp
  · intro he fields hb hm
    unfold extractNextLink
    rw [he, hb]
    simp [hm]

/-- Witness for C2 (amended), applying both halves: the header branch on
`respLinksNoNext` (non-empty link map, no `"next"`), and the meta branch
on a header-less response. -/
theorem extract_link_branch_amended_witness :
    extractNextLink respLinksNoNext =
      .ok ((respLinksNoNext.links.lookup "next").map JSON.str) ∧
    extractNextLink { links := [], body := .obj [("meta", .obj [])] } =
      tryMetaNext (Response.body { links := [], body := .obj [("meta", .obj [])] }) :=
  ⟨(extract_link_branch_amended respLinksNoNext).1 rfl,
   (extract_link_branch_amended { links := [], body := .obj [("meta", .obj [])] }).2
     rfl [("meta", .obj [])] rfl rfl⟩

/-- C6: for a response without a header link whose dict body contains
`"meta"` but where the nested path `meta.pagination.next` stops at a
missing key (no `"pagination"` in the meta dict, or no `"next"` in the
pagination dict), cursor extraction succeeds with an absent cursor — the
missing key is swallowed by the `except KeyError` — and a fetch of such a
response completes normally (given its content builds), with the cursor
set to absent. -/
theorem meta_path_missing_terminates (cfg : PLConfig) (resp : Response)
    (fields : List (String × JSON)) (m : JSON)
    (hl : resp.links.isEmpty = true)
    (hb : resp.body = .obj fields)
    (hm : fields.lookup "meta" = some m)
    (hmiss : (∃ mf, m = .obj mf ∧ mf.lookup "pagination" = none) ∨
             (∃ mf p pf, m = .obj mf ∧ mf.lookup "pagination" = some p ∧
               p = .obj pf ∧ pf.lookup "next" = none)) :
    extractCursor cfg resp = .ok none ∧
    ∀ s content, cfg.server s.fetchCount = resp →
      buildContent cfg resp.body = .ok content →
      getNextPage cfg s =
        ({ s with fetchCount := s.fetchCount + 1,
                  nextUrl := none,
                  nextParams := [] }, .ok content) := by
  have hlink : extractNextLink resp = .ok none := by
    rcases hmiss with ⟨mf, hmf, hnp⟩ | ⟨mf, p, pf, hmf, hp, hpf, hnn⟩
    · subst hmf
      simp [extractNextLink, hl, hb, hm, tryMetaNext, JSON.getItem, hnp]
    · subst hmf
      subst hpf
      simp [extractNextLink, hl, hb, hm, tryMetaNext, JSON.getItem, hp, hnn]
  have hcur : extractCursor cfg resp = .ok none := by
    unfold extractCursor
    rw [hlink]
  refine ⟨hcur, ?_⟩
  intro s content hserver hcontent
  unfold getNextPage
  rw [hserver, hcur, hcontent]

/-- A header-less response whose meta dict has no `pagination` key, with
the page items under a root key. -/
def respMetaEmpty : Response :=
  { links := [], body := .obj [("meta", .obj []), ("data", .arr [itemC])] }

/-- A configuration whose server always serves `respMetaEmpty` and unwraps
the `"data"` root. -/
def cfgMeta : PLConfig :=
  { baseUrl := "B", newQuizzesUrl := "Q", extraAttribs := [], root := some "data"
    server := fun _ => respMetaEmpty }

/-- Witness for C6 on `respMetaEmpty` (body `meta` is the empty dict): the
cursor comes out absent and a concrete fetch completes normally. -/
theorem meta_path_missing_terminates_witness :
    extractCursor cfgMeta respMetaEmpty = .ok none ∧
    ∀ s content, cfgMeta.server s.fetchCount = respMetaEmpty →
      buildContent cfgMeta respMetaEmpty.body = .ok content →
      getNextPage cfgMeta s =
        ({ s with fetchCount := s.fetchCount + 1,
                  nextUrl := none,
                  nextParams := [] }, .ok content) :=
  meta_path_missing_terminates cfgMeta respMetaEmpty
    [("meta", .obj []), ("data", .arr [itemC])] (.obj [])
    rfl rfl rfl (.inl ⟨[], rfl, rfl⟩)

/-- Helper for C10: subscripting any non-dict JSON value raises
`TypeError`. -/
theorem getItem_typeError (m : JSON) (key : String) (hm : m.isObj = false) :
    m.getItem key = .error .typeError := by
  cases m <;> simp_all [JSON.isObj, JSON.getItem]

/-- C10: for a response without a header link whose dict body has a
`"meta"` entry that is present but not a mapping — or whose
`meta.pagination` entry is present but not a mapping — the fetch raises
`TypeError` (only `KeyError` is caught by the fallback), instead of
treating pagination as exhausted. -/
theorem meta_non_mapping_type_error (cfg : PLConfig) (resp : Response)
    (fields : List (String × JSON)) (m : JSON)
    (hl : resp.links.isEmpty = true)
    (hb : resp.body = .obj fields)
    (hm : fields.lookup "meta" = some m)
    (hshape : m.isObj = false ∨
      (∃ mf p, m = .obj mf ∧ mf.lookup "pagination" = some p ∧ p.isObj = false)) :
    extractCursor cfg resp = .error .typeError ∧
    ∀ s, cfg.server s.fetchCount = resp →
      getNextPage cfg s =
        ({ s with fetchCount := s.fetchCount + 1, nextUrl := none }, .error .typeError) := by
  have hlink : extractNextLink resp = .error .typeError := by
    rcases hshape with hno | ⟨mf, p, hmf, hp, hpno⟩
    · cases m <;> first
        | (simp [extractNextLink, hl, hb, hm, tryMetaNext, JSON.getItem]; done)
        | simp [JSON.isObj] at hno
    · subst hmf
      cases p <;> first
        | (simp [extractNextLink, hl, hb, hm, tryMetaNext, JSON.getItem, hp]; done)
        | simp [JSON.isObj] at hpno
  have hcur : extractCursor cfg resp = .error .typeError := by
    unfold extractCursor
    rw [hlink]
  refine ⟨hcur, ?_⟩
  intro s hserver
  unfold getNextPage
  rw [hserver, hcur]

/-- A header-less response whose `meta` value is `null` (not a mapping). -/
def respMetaNull : Response :=
  { links := [], body := .obj [("meta", .null)] }

/-- Witness for C10 on `respMetaNull`: subscripting the `null` meta raises
`TypeError`, which the fetch propagates. -/
theorem meta_non_mapping_type_error_witness :
    extractCursor cfg0 respMetaNull = .error .typeError ∧
    ∀ s, cfg0.server s.fetchCount = respMetaNull →
      getNextPage cfg0 s =
        ({ s with fetchCount := s.fetchCount + 1, nextUrl := none }, .error .typeError) :=
  meta_non_mapping_type_error cfg0 respMetaNull [("meta", .null)] .null
    rfl rfl rfl (.inl rfl)

/-! Claims about next-page URL normalization. -/

/-- When neither pattern alternative matches at any position of the
string, the `re.search` scan comes up empty. -/
theorem searchAux_eq_none (base nq : List Char) :
    ∀ l : List Char,
      (∀ i, i ≤ l.length → base.isPrefixOf (l.drop i) = false ∧
        nq.isPrefixOf (l.drop i) = false) →
      searchAux base nq l = none := by
  intro l
  induction l with
  | nil =>
    intro h
    have h0 := h 0 (by simp)
    simp only [List.drop_nil] at h0
    unfold searchAux
    simp [h0.1, h0.2]
  | cons c cs ih =>
    intro h
    have h0 := h 0 (by simp)
    simp only [List.drop_zero] at h0
    unfold searchAux
    rw [h0.1, h0.2]
    simp only [if_false, Bool.false_eq_true]
    exact ih (fun i hi => by
      have := h (i + 1) (by simpa using Nat.succ_le_succ hi)
      simpa using this)

/-- Counterexample to C5 as stated: the URL `"xB/p2"` starts with neither
the base URL `"B"` nor the new-quizzes URL `"Q"` of `cfg0` — it matches
neither prefix — yet normalization succeeds (with the text after the
embedded `"B"`) rather than failing: `re.search` scans for the base URLs
anywhere in the string, not only as prefixes, so such a fetch silently
continues. -/
theorem substring_match_not_prefix_cex :
    ("B".data.isPrefixOf "xB/p2".data) = false ∧
    ("Q".data.isPrefixOf "xB/p2".data) = false ∧
    normalizeUrl cfg0 (.str "xB/p2") = .ok "/p2" ∧
    extractCursor cfg0 { links := [("next", "xB/p2")], body := .arr [] } =
      .ok (some "/p2") :=
  ⟨rfl, rfl, rfl, rfl⟩

/-- C5 (amended): when the next-page URL *contains* neither the primary
base URL nor the new-quizzes base URL as a substring (at no position does
either match), `re.search` returns `None`, `.group(1)` raises
`AttributeError`, and the page fetch fails with that error — pagination
does not continue with an unnormalized or absent cursor.  (As stated, with
prefix matching, the claim is refuted by `substring_match_not_prefix_cex`:
the code searches for the base URLs anywhere in the URL, not only at its
start.) -/
theorem unmatched_next_url_errors (cfg : PLConfig) (resp : Response) (url : String)
    (s : PLState)
    (hlink : extractNextLink resp = .ok (some (.str url)))
    (hno : ∀ i, i ≤ url.data.length →
      cfg.baseUrl.data.isPrefixOf (url.data.drop i) = false ∧
      cfg.newQuizzesUrl.data.isPrefixOf (url.data.drop i) = false)
    (hserver : cfg.server s.fetchCount = resp) :
    getNextPage cfg s =
      ({ s with fetchCount := s.fetchCount + 1, nextUrl := none },
        .error .attributeError) := by
  have hsearch : regexSearchGroup1 cfg.baseUrl cfg.newQuizzesUrl url = none := by
    unfold regexSearchGroup1
    rw [searchAux_eq_none cfg.baseUrl.data cfg.newQuizzesUrl.data url.data hno]
    rfl
  have hcur : extractCursor cfg resp = .error .attributeError := by
    simp [extractCursor, hlink, normalizeUrl, hsearch]
  unfold getNextPage
  rw [hserver, hcur]

/-- A response whose header names a next URL that contains neither base
URL of `cfg0` anywhere. -/
def respForeignHost : Response := { links := [("next", "xyz")], body := .arr [] }

/-- Witness for C5 (amended): fetching `respForeignHost` fails with
`AttributeError` from any state whose fetch ordinal maps to it. -/
theorem unmatched_next_url_errors_witness :
    getNextPage { cfg0 with server := fun _ => respForeignHost } (initState "/p1" []) =
      ({ initState "/p1" [] with fetchCount := (initState "/p1" []).fetchCount + 1,
                                 nextUrl := none },
        .error .attributeError) :=
  unmatched_next_url_errors { cfg0 with server := fun _ => respForeignHost }
    respForeignHost "xyz" (initState "/p1" []) rfl (by decide) rfl

/-! Invariant lemmas for full iteration and slice traversal. -/

/-- The growing phase of `__iter__` only appends to `self._elements`. -/
theorem iterLoop_appends (cfg : PLConfig) :
    ∀ fuel s s1 r, iterLoop cfg fuel s = some (s1, r) → s.elements <+: s1.elements := by
  intro fuel
  induction fuel with
  | zero =>
    intro s s1 r h
    unfold iterLoop at h
    split at h
    · exact absurd h (by simp)
    · cases h
      exact List.prefix_rfl
  | succ fuel ih =>
    intro s s1 r h
    unfold iterLoop at h
    split at h
    · cases hg : grow cfg s with
      | mk sm rm =>
        rw [hg] at h
        cases rm with
        | ok newElements =>
          simp only at h
          cases hi : iterLoop cfg fuel sm with
          | none => rw [hi] at h; exact absurd h (by simp)
          | some q =>
            cases q with
            | mk s2 r2 =>
              rw [hi] at h
              have hp2 := (grow_appends cfg s sm _ hg).trans (ih sm s2 r2 hi)
              cases r2 with
              | error e => cases h; exact hp2
              | ok rest => cases h; exact hp2
        | error e =>
          cases h
          exact grow_appends cfg s s1 _ hg
    · cases h
      exact List.prefix_rfl

/-- When the cursor is absent, the growing phase of `__iter__` exits at
once without touching the state. -/
theorem iterLoop_absent (cfg : PLConfig) (fuel : Nat) (s : PLState)
    (hn : s.nextUrl = none) : iterLoop cfg fuel s = some (s, .ok []) := by
  have hhn : hasNext s = false := by simp [hasNext, hn]
  cases fuel <;> · unfold iterLoop; simp [hhn]

/-- `__iter__` only appends to `self._elements`. -/
theorem fullIter_appends (cfg : PLConfig) (fuel : Nat) (s s1 : PLState)
    (r : Except PyErr (List JSON)) (h : fullIter cfg fuel s = some (s1, r)) :
    s.elements <+: s1.elements := by
  unfold fullIter at h
  cases hi : iterLoop cfg fuel s with
  | none => rw [hi] at h; exact absurd h (by simp)
  | some q =>
    cases q with
    | mk sm rm =>
      rw [hi] at h
      have hp := iterLoop_appends cfg fuel s sm rm hi
      cases rm with
      | error e => cases h; exact hp
      | ok grown => cases h; exact hp

/-- The slice traversal only appends to `self._elements`. -/
theorem sliceIterLoop_appends (cfg : PLConfig) (v : SliceView) (pageFuel : Nat) :
    ∀ fuel index s s1 r, sliceIterLoop cfg v pageFuel fuel index s = some (s1, r) →
      s.elements <+: s1.elements := by
  intro fuel
  induction fuel with
  | zero =>
    intro index s s1 r h
    unfold sliceIterLoop at h
    split at h
    · cases h
      exact List.prefix_rfl
    · exact absurd h (by simp)
  | succ fuel ih =>
    intro index s s1 r h
    unfold sliceIterLoop at h
    split at h
    · cases h
      exact List.prefix_rfl
    · split at h
      · cases hg : getitemInt cfg pageFuel index s with
        | none => rw [hg] at h; exact absurd h (by simp)
        | some p =>
          cases p with
          | mk sm rm =>
            rw [hg] at h
            have hp1 := getitemInt_appends cfg pageFuel index s sm rm hg
            cases rm with
            | ok x =>
              simp only at h
              cases hs : sliceIterLoop cfg v pageFuel fuel (index + v.step) sm with
              | none => rw [hs] at h; exact absurd h (by simp)
              | some q =>
                cases q with
                | mk s2 r2 =>
                  rw [hs] at h
                  have hp2 := hp1.trans (ih (index + v.step) sm s2 r2 hs)
                  cases r2 with
                  | error e => cases h; exact hp2
                  | ok rest => cases h; exact hp2
            | error e =>
              cases e <;> simp only at h <;> cases h <;> exact hp1
      · cases h
        exact List.prefix_rfl

/-- When the cursor is absent, a slice traversal can only replay cached
elements: whenever it terminates, the state is returned unchanged. -/
theorem sliceIterLoop_absent (cfg : PLConfig) (v : SliceView) (pageFuel : Nat) :
    ∀ fuel index s s1 r, s.nextUrl = none →
      sliceIterLoop cfg v pageFuel fuel index s = some (s1, r) → s1 = s := by
  intro fuel
  induction fuel with
  | zero =>
    intro index s s1 r hn h
    unfold sliceIterLoop at h
    split at h
    · cases h; rfl
    · exact absurd h (by simp)
  | succ fuel ih =>
    intro index s s1 r hn h
    unfold sliceIterLoop at h
    split at h
    · cases h; rfl
    · split at h
      · obtain ⟨r0, hr0⟩ := getitemInt_absent cfg pageFuel index s hn
        rw [hr0] at h
        cases r0 with
        | ok x =>
          simp only at h
          cases hs : sliceIterLoop cfg v pageFuel fuel (index + v.step) s with
          | none => rw [hs] at h; exact absurd h (by simp)
          | some q =>
            cases q with
            | mk s2 r2 =>
              rw [hs] at h
              have hs2 := ih (index + v.step) s s2 r2 hn hs
              subst hs2
              cases r2 with
              | error e => cases h; rfl
              | ok rest => cases h; rfl
        | error e =>
          cases e <;> simp only at h <;> cases h <;> rfl
      · cases h; rfl

/-- C4: every public operation — `__getitem__` with any argument (int,
slice or other), a slice traversal, and full iteration — preserves the
state invariants: the already-materialized element sequence before the
operation is a prefix of the sequence after it, and once the cursor is
absent it stays absent. -/
theorem public_ops_preserve_invariants (cfg : PLConfig) (s : PLState) :
    (∀ fuel arg s1 r, getitem cfg fuel arg s = some (s1, r) →
        s.elements <+: s1.elements ∧ (s.nextUrl = none → s1.nextUrl = none)) ∧
    (∀ v pageFuel fuel index s1 r,
        sliceIterLoop cfg v pageFuel fuel index s = some (s1, r) →
        s.elements <+: s1.elements ∧ (s.nextUrl = none → s1.nextUrl = none)) ∧
    (∀ fuel s1 r, fullIter cfg fuel s = some (s1, r) →
        s.elements <+: s1.elements ∧ (s.nextUrl = none → s1.nextUrl = none)) := by
  refine ⟨?_, ?_, ?_⟩
  · intro fuel arg s1 r h
    cases arg with
    | other =>
      cases h
      exact ⟨List.prefix_rfl, fun hn => hn⟩
    | slice sl =>
      cases h
      exact ⟨List.prefix_rfl, fun hn => hn⟩
    | int i =>
      simp only [getitem] at h
      cases hg : getitemInt cfg fuel i s with
      | none => rw [hg] at h; exact absurd h (by simp)
      | some p =>
        cases p with
        | mk sm rm =>
          rw [hg] at h
          simp at h
          obtain ⟨hsm, hr⟩ := h
          subst hsm
          refine ⟨getitemInt_appends cfg fuel i s sm rm hg, fun hn => ?_⟩
          obtain ⟨r0, hr0⟩ := getitemInt_absent cfg fuel i s hn
          rw [hr0] at hg
          have : s = sm := congrArg Prod.fst (Option.some.inj hg)
          rw [← this]
          exact hn
  · intro v pageFuel fuel index s1 r h
    refine ⟨sliceIterLoop_appends cfg v pageFuel fuel index s s1 r h, fun hn => ?_⟩
    rw [sliceIterLoop_absent cfg v pageFuel fuel index s s1 r hn h]
    exact hn
  · intro fuel s1 r h
    refine ⟨fullIter_appends cfg fuel s s1 r h, fun hn => ?_⟩
    unfold fullIter at h
    rw [iterLoop_absent cfg fuel s hn] at h
    simp only at h
    have : s = s1 := congrArg Prod.fst (Option.some.inj h)
    rw [← this]
    exact hn

/-- Witness for C4: a full iteration of the sample collection from the
state after one fetch grows the store from two to three elements — the old
store is a prefix of the new one — and the cursor-absence implication
holds. -/
theorem public_ops_preserve_invariants_witness :
    stateAfterOne.elements <+: stateAfterTwo.elements ∧
    (stateAfterOne.nextUrl = none → stateAfterTwo.nextUrl = none) :=
  (public_ops_preserve_invariants cfg0 stateAfterOne).2.2 2 stateAfterTwo
    (.ok [itemA, itemB, itemC]) rfl

/-! Full iteration over a finite server. -/

/-- Running the growing phase of `__iter__` against a server that yields
`pages`: starting in sync at fetch ordinal `fetchCount`, with enough fuel
the loop fetches exactly the remaining pages, appends their concatenation,
ends with the cursor absent and the fetch count at the page count. -/
theorem iterLoop_run (cfg : PLConfig) (pages : List (List JSON)) (nexts : Nat → String)
    (hS : serverYields cfg pages nexts) :
    ∀ fuel s, s.fetchCount ≤ pages.length →
      (hasNext s = true ↔ s.fetchCount < pages.length) →
      pages.length - s.fetchCount ≤ fuel →
      ∃ s1, iterLoop cfg fuel s = some (s1, .ok ((pages.drop s.fetchCount).flatten)) ∧
        s1.elements = s.elements ++ (pages.drop s.fetchCount).flatten ∧
        s1.nextUrl = none ∧ s1.fetchCount = pages.length := by
  intro fuel
  induction fuel with
  | zero =>
    intro s hle hiff hfuel
    have hfc : s.fetchCount = pages.length := by omega
    have hn : hasNext s = false := by
      cases hx : hasNext s
      · rfl
      · have := hiff.mp hx
        omega
    have hnone : s.nextUrl = none := by
      unfold hasNext at hn
      cases hy : s.nextUrl
      · rfl
      · rw [hy] at hn
        simp at hn
    refine ⟨s, ?_, ?_, hnone, hfc⟩
    · rw [hfc, List.drop_length pages]
      exact iterLoop_absent cfg 0 s hnone
    · rw [hfc, List.drop_length pages]
      simp
  | succ fuel ih =>
    intro s hle hiff hfuel
    cases hx : hasNext s with
    | false =>
      have hfc : s.fetchCount = pages.length := by
        rcases Nat.lt_or_ge s.fetchCount pages.length with hlt | hge
        · rw [hiff.mpr hlt] at hx
          cases hx
        · omega
      have hnone : s.nextUrl = none := by
        unfold hasNext at hx
        cases hy : s.nextUrl
        · rfl
        · rw [hy] at hx
          simp at hx
      refine ⟨s, ?_, ?_, hnone, hfc⟩
      · rw [hfc, List.drop_length pages]
        exact iterLoop_absent cfg (fuel + 1) s hnone
      · rw [hfc, List.drop_length pages]
        simp
    | true =>
      have hlt : s.fetchCount < pages.length := hiff.mp hx
      obtain ⟨hcurEq, hcontent⟩ := hS s.fetchCount hlt
      have hgrow := grow_spec cfg s
        (if s.fetchCount + 1 < pages.length then some (nexts s.fetchCount) else none)
        (pages.getD s.fetchCount []) hcurEq hcontent
      set items : List JSON := pages.getD s.fetchCount [] with hitems
      set cur : Option String :=
        if s.fetchCount + 1 < pages.length then some (nexts s.fetchCount) else none
        with hcurdef
      set s' : PLState :=
        { s with elements := s.elements ++ items,
                 nextUrl := cur,
                 nextParams := [],
                 fetchCount := s.fetchCount + 1 } with hs'
      have hle' : s'.fetchCount ≤ pages.length := by
        simp [hs']
        omega
      have hiff' : hasNext s' = true ↔ s'.fetchCount < pages.length := by
        simp only [hs', hasNext, hcurdef]
        by_cases hc : s.fetchCount + 1 < pages.length <;> simp [hc]
      have hfuel' : pages.length - s'.fetchCount ≤ fuel := by
        simp [hs']
        omega
      obtain ⟨s1, hrun, helems, hnone1, hfc1⟩ := ih s' hle' hiff' hfuel'
      have hdrop : pages.drop s.fetchCount = items :: pages.drop (s.fetchCount + 1) := by
        rw [List.drop_eq_getElem_cons hlt, hitems, List.getD_eq_getElem pages [] hlt]
      refine ⟨s1, ?_, ?_, hnone1, hfc1⟩
      · unfold iterLoop
        rw [if_pos hx, hgrow]
        simp only
        rw [hrun]
        simp only [hs'] at hrun ⊢
        rw [hdrop]
        simp
      · rw [helems, hdrop]
        simp [hs']

/-- C3: against a finite server of `N = pages.length ≥ 1` pages (cursor
present after each of the first `N-1` fetches, absent after the `N`th),
full iteration from a fresh collection yields exactly the concatenation of
all pages in server order; afterwards the fetch count is exactly `N` and
the cursor is absent, and any restarted iteration pass replays the same
sequence from the identical state — with any fuel, so no further fetch
ever happens. -/
theorem full_iteration_yields_all_pages (cfg : PLConfig) (pages : List (List JSON))
    (nexts : Nat → String) (firstUrl : String) (kwargs : List (String × JSON))
    (fuel fuel2 : Nat)
    (hN : 1 ≤ pages.length)
    (hS : serverYields cfg pages nexts)
    (hfuel : pages.length ≤ fuel) :
    ∃ s1,
      fullIter cfg fuel (initState firstUrl kwargs) = some (s1, .ok pages.flatten) ∧
      s1.elements = pages.flatten ∧
      s1.nextUrl = none ∧
      s1.fetchCount = pages.length ∧
      fullIter cfg fuel2 s1 = some (s1, .ok pages.flatten) := by
  have hc0 : (initState firstUrl kwargs).fetchCount = 0 := rfl
  have he0 : (initState firstUrl kwargs).elements = [] := rfl
  obtain ⟨s1, hrun, helems, hnone, hfc⟩ :=
    iterLoop_run cfg pages nexts hS fuel (initState firstUrl kwargs)
      (by rw [hc0]; exact Nat.zero_le _)
      (by rw [hc0]; simp [initState, hasNext]; omega)
      (by rw [hc0]; omega)
  rw [hc0, List.drop_zero] at hrun helems
  rw [he0, List.nil_append] at helems
  refine ⟨s1, ?_, helems, hnone, hfc, ?_⟩
  · unfold fullIter
    rw [hrun]
    simp only
    rw [he0, List.nil_append]
  · unfold fullIter
    rw [iterLoop_absent cfg fuel2 s1 hnone]
    simp only
    rw [List.append_nil, helems]

/-- Witness for C3 on the sample two-page server `cfg0`: the first full
pass yields the three items with two fetches, and a restarted pass with
zero fuel replays them from the identical state. -/
theorem full_iteration_yields_all_pages_witness :
    ∃ s1,
      fullIter cfg0 2 (initState "/p1" []) = some (s1, .ok pages0.flatten) ∧
      s1.elements = pages0.flatten ∧
      s1.nextUrl = none ∧
      s1.fetchCount = pages0.length ∧
      fullIter cfg0 0 s1 = some (s1, .ok pages0.flatten) :=
  full_iteration_yields_all_pages cfg0 pages0 (fun _ => "/p2") "/p1" [] 2 0
    (by decide)
    (fun k hk => by
      match k, hk with
      | 0, _ => exact ⟨rfl, rfl⟩
      | 1, _ => exact ⟨rfl, rfl⟩)
    (by decide)
